import Mathlib

/-!
Verification of the core pipeline of `cc2imgcap` (`src/cc2imgcap/main.py`):
a shallow embedding in Lean 4 of the record filter, the archive extractor,
the dedup-merge stage, the multi-part orchestrator and the two buggy
helpers (`url_is_img`, the unbound `spark` in `process_one_part`), with
theorems settling the specification claims about them.
-/

namespace CC

/-! ## 32-bit arithmetic on `Nat` (Python ints / C words, reduced mod 2^32) -/

def u32 (n : Nat) : Nat := n % 4294967296

def not32 (x : Nat) : Nat := Nat.xor (u32 x) 4294967295

def rotl32 (x s : Nat) : Nat :=
  u32 (Nat.shiftLeft (u32 x) s) ||| Nat.shiftRight (u32 x) (32 - s)

/-! ## UTF-8 encoding (Python `str.encode()`), bytes as `Nat` < 256 -/

def utf8EncodeCharNat (c : Char) : List Nat :=
  let n := c.toNat
  if n < 128 then [n]
  else if n < 2048 then
    [192 ||| (n >>> 6), 128 ||| (n &&& 63)]
  else if n < 65536 then
    [224 ||| (n >>> 12), 128 ||| ((n >>> 6) &&& 63), 128 ||| (n &&& 63)]
  else
    [240 ||| (n >>> 18), 128 ||| ((n >>> 12) &&& 63),
     128 ||| ((n >>> 6) &&& 63), 128 ||| (n &&& 63)]

def utf8Bytes (s : String) : List Nat := s.data.flatMap utf8EncodeCharNat

/-! ## MD5 (RFC 1321), the hash used at `main.py:48`
(`hashlib.md5((link["alt"] + link["url"]).encode()).hexdigest()`) -/

def md5K : List Nat :=
  [3614090360, 3905402710, 606105819, 3250441966,
   4118548399, 1200080426, 2821735955, 4249261313,
   1770035416, 2336552879, 4294925233, 2304563134,
   1804603682, 4254626195, 2792965006, 1236535329,
   4129170786, 3225465664, 643717713, 3921069994,
   3593408605, 38016083, 3634488961, 3889429448,
   568446438, 3275163606, 4107603335, 1163531501,
   2850285829, 4243563512, 1735328473, 2368359562,
   4294588738, 2272392833, 1839030562, 4259657740,
   2763975236, 1272893353, 4139469664, 3200236656,
   681279174, 3936430074, 3572445317, 76029189,
   3654602809, 3873151461, 530742520, 3299628645,
   4096336452, 1126891415, 2878612391, 4237533241,
   1700485571, 2399980690, 4293915773, 2240044497,
   1873313359, 4264355552, 2734768916, 1309151649,
   4149444226, 3174756917, 718787259, 3951481745]

def md5S : List Nat :=
  [7, 12, 17, 22, 7, 12, 17, 22, 7, 12, 17, 22, 7, 12, 17, 22,
   5, 9, 14, 20, 5, 9, 14, 20, 5, 9, 14, 20, 5, 9, 14, 20,
   4, 11, 16, 23, 4, 11, 16, 23, 4, 11, 16, 23, 4, 11, 16, 23,
   6, 10, 15, 21, 6, 10, 15, 21, 6, 10, 15, 21, 6, 10, 15, 21]

def md5F (i b c d : Nat) : Nat :=
  if i < 16 then (b &&& c) ||| (not32 b &&& d)
  else if i < 32 then (d &&& b) ||| (not32 d &&& c)
  else if i < 48 then (b ^^^ c) ^^^ d
  else c ^^^ (b ||| not32 d)

def md5G (i : Nat) : Nat :=
  if i < 16 then i
  else if i < 32 then (5 * i + 1) % 16
  else if i < 48 then (3 * i + 5) % 16
  else (7 * i) % 16

/-- Little-endian byte decomposition: `leBytes k n` is the `k` low bytes of `n`. -/
def leBytes : Nat → Nat → List Nat
  | 0, _ => []
  | k + 1, n => (n % 256) :: leBytes k (n / 256)

/-- Read a little-endian word from a byte list. -/
def leWord (bs : List Nat) : Nat := bs.foldr (fun b acc => acc * 256 + b) 0

/-- The sixteen 32-bit little-endian words of one 64-byte chunk. -/
def chunkWords (chunk : List Nat) : List Nat :=
  (List.range 16).map (fun i => leWord ((chunk.drop (4 * i)).take 4))

/-- MD5 padding: append `0x80`, zero bytes to 56 mod 64, then the 64-bit
little-endian bit length of the original message. -/
def md5Pad (msg : List Nat) : List Nat :=
  let len := msg.length
  let padZeros := (119 - len % 64) % 64
  msg ++ [128] ++ List.replicate padZeros 0 ++ leBytes 8 ((8 * len) % 18446744073709551616)

def md5Round (ws : List Nat) (st : Nat × Nat × Nat × Nat) (i : Nat) :
    Nat × Nat × Nat × Nat :=
  let a := st.1
  let b := st.2.1
  let c := st.2.2.1
  let d := st.2.2.2
  let f := u32 (md5F i b c d + a + md5K.getD i 0 + ws.getD (md5G i) 0)
  (d, u32 (b + rotl32 f (md5S.getD i 0)), b, c)

def md5Chunk (st : Nat × Nat × Nat × Nat) (chunk : List Nat) :
    Nat × Nat × Nat × Nat :=
  let ws := chunkWords chunk
  let r := (List.range 64).foldl (md5Round ws) st
  (u32 (st.1 + r.1), u32 (st.2.1 + r.2.1), u32 (st.2.2.1 + r.2.2.1), u32 (st.2.2.2 + r.2.2.2))

def hexDigit (n : Nat) : Char := "0123456789abcdef".data.getD n '0'

def byteHex (b : Nat) : List Char := [hexDigit (b / 16), hexDigit (b % 16)]

/-- MD5 digest of the bytes of a string, as a lowercase hex string: the Lean
model of Python `hashlib.md5(s.encode()).hexdigest()`. -/
def md5Hex (s : String) : String :=
  let padded := md5Pad (utf8Bytes s)
  let chunks := (List.range (padded.length / 64)).map
    (fun i => (padded.drop (64 * i)).take 64)
  let r := chunks.foldl md5Chunk (1732584193, 4023233417, 2562383102, 271733878)
  String.mk ((leBytes 4 r.1 ++ leBytes 4 r.2.1 ++ leBytes 4 r.2.2.1 ++ leBytes 4 r.2.2.2).flatMap byteHex)

/-! ## Data model: link descriptors, records, candidates, Python errors -/

/-- A Python exception class relevant to this program. -/
inductive PyErr
  | keyError
  | nameError
  | attributeError
deriving DecidableEq, Repr

/-- One element of a record's `Links` list: a JSON mapping whose `path`,
`url`, `alt` keys may each be absent. `valid_link` reads them through
`link.get(key, "")`; candidate construction reads `link["url"]`,
`link["alt"]` directly. -/
structure LinkDesc where
  path : Option String
  url : Option String
  alt : Option String
deriving DecidableEq, Repr

/-- `HTML-Metadata` level: may lack the `Links` key (`main.py:40`). -/
structure HtmlMeta where
  links : Option (List LinkDesc)
deriving DecidableEq, Repr

/-- `HTTP-Response-Metadata` level: may lack `HTML-Metadata` (`main.py:37`). -/
structure HttpRespMeta where
  htmlMetadata : Option HtmlMeta
deriving DecidableEq, Repr

/-- `Payload-Metadata` level: may lack `HTTP-Response-Metadata` (`main.py:34`). -/
structure PayloadMeta where
  httpResponseMetadata : Option HttpRespMeta
deriving DecidableEq, Repr

/-- `Envelope` level: may lack `Payload-Metadata`, which `main.py:33`
accesses with `envelope["Payload-Metadata"]` (KeyError if absent). -/
structure Envelope where
  payloadMetadata : Option PayloadMeta
deriving DecidableEq, Repr

/-- A decoded metadata record: may lack `Envelope`, which `main.py:32`
accesses with `record_data["Envelope"]` (KeyError if absent). -/
structure RecordData where
  envelope : Option Envelope
deriving DecidableEq, Repr

/-- A link candidate row, columns `(uid, url, alt)` as in `main.py:77,134`. -/
structure Candidate where
  uid : String
  url : String
  alt : String
deriving DecidableEq, Repr

/-- Python `d[key]` on a mapping whose key may be absent: KeyError when it is. -/
def getItem : Option α → Except PyErr α
  | none => Except.error PyErr.keyError
  | some v => Except.ok v

/-! ## Record Filter (`valid_link`, `main.py:57-62`) -/

/-- Python `s.startswith(p)`: `p` is a character-level prefix of `s`. -/
def strStartsWith (s p : String) : Bool := p.data.isPrefixOf s.data

/-- Python `s.endswith(p)`: `p` is a character-level suffix of `s`. -/
def strEndsWith (s p : String) : Bool := p.data.isSuffixOf s.data

/-- Python tuple `endswith`: `s.endswith((e1, ..., en))`. -/
def endsWithAny (s : String) (exts : List String) : Bool :=
  exts.any (fun e => strEndsWith s e)

/-- `main.py:57-62`, translated clause by clause:
`valid_path = link.get("path", "") == "IMG@/src"`,
`valid_img = link.get("url", "").endswith((".png", ".jpg", ".jpeg"))`,
`valid_alt = len(link.get("alt", "")) > 0`,
`valid_http = link.get("url", "").startswith("http")`,
`return (valid_path or valid_img) and valid_path and valid_http and valid_alt`. -/
def valid_link (link : LinkDesc) : Bool :=
  let valid_path := link.path.getD "" == "IMG@/src"
  let valid_img := endsWithAny (link.url.getD "") [".png", ".jpg", ".jpeg"]
  let valid_alt := decide (0 < (link.alt.getD "").length)
  let valid_http := strStartsWith (link.url.getD "") "http"
  (valid_path || valid_img) && valid_path && valid_http && valid_alt

/-- `valid_link` with the file-extension check (`valid_img`) replaced by an
arbitrary predicate on the url, to state that this check cannot influence
the result of the boolean expression. -/
def valid_link_with (imgCheck : String → Bool) (link : LinkDesc) : Bool :=
  let valid_path := link.path.getD "" == "IMG@/src"
  let valid_img := imgCheck (link.url.getD "")
  let valid_alt := decide (0 < (link.alt.getD "").length)
  let valid_http := strStartsWith (link.url.getD "") "http"
  (valid_path || valid_img) && valid_path && valid_http && valid_alt

/-! ## Archive Extractor (`extract_imgs`, `main.py:20-54`) -/

/-- Candidate construction for one filtered link (`main.py:46-48`):
`{"url": link["url"], "alt": link["alt"]}` followed by
`link["uid"] = str(hashlib.md5((link["alt"] + link["url"]).encode()).hexdigest())`. -/
def mkCandidate (link : LinkDesc) : Except PyErr Candidate := do
  let url ← getItem link.url
  let alt ← getItem link.alt
  Except.ok { uid := md5Hex (alt ++ url), url := url, alt := alt }

/-- The per-record body of the extraction loop (`main.py:32-49`), after a
successful decode. `record_data["Envelope"]` and
`envelope["Payload-Metadata"]` are direct subscript reads (KeyError when the
key is absent, escaping to the outer handler); the three deeper levels are
guarded by `not in` checks that `continue` (yield no candidates). -/
def processRecord (rd : RecordData) : Except PyErr (List Candidate) := do
  let envelope ← getItem rd.envelope
  let payload ← getItem envelope.payloadMetadata
  match payload.httpResponseMetadata with
  | none => Except.ok []
  | some http_resp =>
    match http_resp.htmlMetadata with
    | none => Except.ok []
    | some metadata =>
      match metadata.links with
      | none => Except.ok []
      | some links => (links.filter valid_link).mapM mkCandidate

/-- One step of the record iteration at `main.py:25`: a record whose body
decodes, a record whose `simdjson.load` raises (caught by the inner bare
`except` at line 28, which continues), or a point where the iteration itself
raises (reaching the outer bare `except` at line 50). -/
inductive RecEvent
  | ok (rd : RecordData)
  | decodeFail
  | fault
deriving DecidableEq, Repr

/-- The extraction loop with accumulator `all_links`: the outer bare
`except` at `main.py:50-52` returns `[]` — both when the iteration faults and
when record processing raises a KeyError. -/
def extractGo : List Candidate → List RecEvent → List Candidate
  | acc, [] => acc
  | _, RecEvent.fault :: _ => []
  | acc, RecEvent.decodeFail :: rest => extractGo acc rest
  | acc, RecEvent.ok rd :: rest =>
    match processRecord rd with
    | Except.error _ => []
    | Except.ok cands => extractGo (acc ++ cands) rest

/-- `extract_imgs` (`main.py:20-54`): total on every stream; returns the
accumulated candidates, or `[]` through the outer exception handler. -/
def extract_imgs (stream : List RecEvent) : List Candidate := extractGo [] stream

/-! ## Dedup-Merge Stage (`deduplicate_repartition_count`, `main.py:111-120`) -/

/-- Spark `df.dropDuplicates(["uid"])` modeled with keep-first semantics:
`seen` is the set of uids already emitted. -/
def dropDuplicatesUid : List String → List Candidate → List Candidate
  | _, [] => []
  | seen, r :: rs =>
    if r.uid ∈ seen then dropDuplicatesUid seen rs
    else r :: dropDuplicatesUid (r.uid :: seen) rs

/-- Result of the dedup-merge stage: the surviving rows, the target
partition count passed to `repartition`, and the row count reported after
the write / read-back. -/
structure DedupResult where
  rows : List Candidate
  partitions : Nat
  reportedCount : Nat
deriving DecidableEq, Repr

/-- `main.py:111-120`: drop duplicate uids, repartition to
`max(256, wat_count // 100)`, write as parquet, read back and count.
Repartitioning and the write / read-back round trip preserve the rows, so
the model carries the partition count separately from the row list. -/
def deduplicate_repartition_count (df : List Candidate) (output_path : String)
    (wat_count : Nat) : DedupResult :=
  let uniques := dropDuplicatesUid [] df
  { rows := uniques
    partitions := max 256 (wat_count / 100)
    reportedCount := uniques.length }

/-! ## Multi-Part Orchestrator slicing (`process_multi_part`, `main.py:139-150`) -/

/-- Python list slice `l[start:stop]` for non-negative bounds (clamped). -/
def pySlice (l : List α) (start stop : Nat) : List α :=
  (l.drop start).take (stop - start)

/-- The per-part slices computed at `main.py:141-150`:
`wat_per_part = math.ceil(wat_count / multipart)` (exact ceiling division)
and part `i` receives `wat_index_files[start:end]` with
`start = i * wat_per_part`, `end = (i + 1) * wat_per_part`. -/
def multiPartSlices (wat_index_files : List String) (multipart : Nat) :
    List (List String) :=
  let wat_count := wat_index_files.length
  let wat_per_part := (wat_count + multipart - 1) / multipart
  (List.range multipart).map
    (fun i => pySlice wat_index_files (i * wat_per_part) ((i + 1) * wat_per_part))

/-! ## Scope model for `process_one_part` (`main.py:123-136`) -/

/-- The names bound at module level in `main.py`: the imports of lines 4-17
and the top-level `def`s. `spark` is not among them. -/
def moduleGlobals : List String :=
  ["ArchiveIterator", "WarcRecordType", "BinaryIO", "simdjson", "fsspec",
   "timer", "logger", "hashlib", "ThreadPool", "SparkContext", "random",
   "uuid", "math", "time", "build_spark_session",
   "extract_imgs", "valid_link", "url_is_img", "process_wat",
   "get_cc_wat_links", "read_wat_index_file", "read_wat_index_files",
   "deduplicate_repartition_count", "process_one_part", "process_multi_part",
   "cc2imgcap", "main"]

/-- The local names of `process_one_part` (parameters and assignments,
`main.py:123-134`). -/
def processOnePartLocals : List String :=
  ["output_path", "wat_index_files", "sc", "wat_count", "wat_rdd", "extract",
   "output", "df"]

/-- Python name resolution inside a function body: local scope, then module
globals; an unbound name raises NameError. -/
def lookupName (locals : List String) (n : String) : Except PyErr Unit :=
  if n ∈ locals ∨ n ∈ moduleGlobals then Except.ok () else Except.error PyErr.nameError

/-- Observable dataframe actions of `process_one_part` and the dedup stage. -/
inductive SparkAction
  | parallelize
  | mapPartitions
  | toDF
  | dropDuplicates
  | repartition
  | writeParquet
  | readParquet
deriving DecidableEq, Repr

/-- `main.py:123-136`: the transformations at lines 125-134 build the
dataframe; the final statement
`deduplicate_repartition_count(df, output_path, wat_count, spark)` must
evaluate its argument expressions — among them the bare name `spark` — before
the call can run, so the model resolves that name in the function's scope
first and only then emits the dedup / write / read actions. -/
def process_one_part (output_path : String) (wat_index_files : List String) :
    Except PyErr (List SparkAction) := do
  let pre := [SparkAction.parallelize, SparkAction.mapPartitions, SparkAction.toDF]
  let _ ← lookupName processOnePartLocals "spark"
  Except.ok (pre ++ [SparkAction.dropDuplicates, SparkAction.repartition,
    SparkAction.writeParquet, SparkAction.readParquet])

/-! ## `url_is_img` (`main.py:65-68`) -/

/-- A Python runtime value of the fragment `url_is_img` manipulates. -/
inductive PyVal
  | str (s : String)
  | bool (b : Bool)
deriving DecidableEq, Repr

/-- Attribute access `.startswith(arg)` on a runtime value: defined on
`str`, AttributeError on `bool`. -/
def pyStartswith : PyVal → String → Except PyErr PyVal
  | PyVal.str s, arg => Except.ok (PyVal.bool (strStartsWith s arg))
  | PyVal.bool _, _ => Except.error PyErr.attributeError

/-- Python truthiness for the fragment's values. -/
def pyTruthy : PyVal → Bool
  | PyVal.str s => !(s == "")
  | PyVal.bool b => b

/-- `main.py:65-68`:
`rsp = url.lower().endswith((".png", ".jpg", ".jpeg"))` (a `bool`),
`valid_http = rsp.startswith("http")`, `return rsp and valid_http`
(Python `and` returns `rsp` when falsy, else `valid_http`). -/
def url_is_img (url : String) : Except PyErr PyVal := do
  let rsp := PyVal.bool (endsWithAny url.toLower [".png", ".jpg", ".jpeg"])
  let valid_http ← pyStartswith rsp "http"
  Except.ok (if pyTruthy rsp then valid_http else rsp)

/-! ## Concrete records used by witnesses and counterexamples -/

/-- A record containing one valid link descriptor
(`path = "IMG@/src"`, `url = "http://a/x.png"`, `alt = "cat"` — the §8
end-to-end scenario of the spec). -/
def demoRecord : RecordData :=
  ⟨some ⟨some ⟨some ⟨some ⟨some
    [⟨some "IMG@/src", some "http://a/x.png", some "cat"⟩,
     ⟨some "other", some "http://a/y.png", some "dog"⟩]⟩⟩⟩⟩⟩

/-- The candidate extracted from `demoRecord`. -/
def demoCandidate : Candidate :=
  { uid := md5Hex ("cat" ++ "http://a/x.png"), url := "http://a/x.png", alt := "cat" }

/-- A record whose decoded body lacks the `Envelope` key. -/
def noEnvelopeRecord : RecordData := { envelope := none }

/-- A record whose payload metadata lacks `HTTP-Response-Metadata`. -/
def noHttpRecord : RecordData := ⟨some ⟨some ⟨none⟩⟩⟩

/-- Does the record have envelope and payload metadata but lack one of the
three `in`-guarded levels (`HTTP-Response-Metadata`, `HTML-Metadata`,
`Links`)? These are the levels `main.py:34-41` skips with `continue`. -/
def missingInnerLevel (rd : RecordData) : Bool :=
  match rd.envelope with
  | none => false
  | some env =>
    match env.payloadMetadata with
    | none => false
    | some pm =>
      match pm.httpResponseMetadata with
      | none => true
      | some hr =>
        match hr.htmlMetadata with
        | none => true
        | some hm => hm.links.isNone

set_option maxRecDepth 40000

/-- Sanity check of the MD5 model against the RFC 1321 test vector for "abc". -/
theorem md5Hex_abc : md5Hex "abc" = "900150983cd24fb0d6963f7d28e17f72" := by decide

/-! ## Lemmas about `dropDuplicatesUid` -/

theorem mem_dropDuplicatesUid_not_seen (r : Candidate) (l : List Candidate) :
    ∀ seen : List String, r ∈ dropDuplicatesUid seen l → r.uid ∉ seen := by
  induction l with
  | nil => intro seen h; simp [dropDuplicatesUid] at h
  | cons a rs ih =>
    intro seen h
    by_cases ha : a.uid ∈ seen
    · exact ih seen (by simpa [dropDuplicatesUid, ha] using h)
    · simp only [dropDuplicatesUid, ha, if_false] at h
      rcases List.mem_cons.mp h with h1 | h2
      · subst h1; exact ha
      · intro hc
        exact ih (a.uid :: seen) h2 (List.mem_cons_of_mem _ hc)

theorem nodup_dropDuplicatesUid (l : List Candidate) :
    ∀ seen : List String, ((dropDuplicatesUid seen l).map Candidate.uid).Nodup := by
  induction l with
  | nil => intro seen; simp [dropDuplicatesUid]
  | cons a rs ih =>
    intro seen
    by_cases ha : a.uid ∈ seen
    · simpa [dropDuplicatesUid, ha] using ih seen
    · simp only [dropDuplicatesUid, ha, if_false, List.map_cons, List.nodup_cons]
      refine ⟨?_, ih (a.uid :: seen)⟩
      intro hmem
      rcases List.mem_map.mp hmem with ⟨x, hx, hxeq⟩
      exact mem_dropDuplicatesUid_not_seen x rs (a.uid :: seen) hx (by simp [hxeq])

theorem length_dropDuplicatesUid_le (l : List Candidate) :
    ∀ seen : List String, (dropDuplicatesUid seen l).length ≤ l.length := by
  induction l with
  | nil => intro seen; simp [dropDuplicatesUid]
  | cons a rs ih =>
    intro seen
    by_cases ha : a.uid ∈ seen
    · simp only [dropDuplicatesUid, ha, if_true, List.length_cons]
      exact Nat.le_succ_of_le (ih seen)
    · simp only [dropDuplicatesUid, ha, if_false, List.length_cons]
      exact Nat.succ_le_succ (ih (a.uid :: seen))

theorem dropDuplicatesUid_eq_self (l : List Candidate) :
    ∀ seen : List String, (∀ r ∈ l, r.uid ∉ seen) → (l.map Candidate.uid).Nodup →
      dropDuplicatesUid seen l = l := by
  induction l with
  | nil => intro seen _ _; rfl
  | cons a rs ih =>
    intro seen hseen hnd
    have ha : a.uid ∉ seen := hseen a (List.mem_cons_self a rs)
    simp only [dropDuplicatesUid, ha, if_false, List.cons.injEq, true_and]
    simp only [List.map_cons, List.nodup_cons] at hnd
    refine ih (a.uid :: seen) ?_ hnd.2
    intro r hr hc
    rcases List.mem_cons.mp hc with h1 | h2
    · exact hnd.1 (h1 ▸ List.mem_map_of_mem Candidate.uid hr)
    · exact hseen r (List.mem_cons_of_mem _ hr) h2

/-! ## Claim theorems: dedup-merge stage -/

/-- C1: for any input dataset, possibly with duplicate uids, the dedup-merge
stage produces rows with pairwise distinct uids, at most as many rows as the
input, and running the stage again on its own rows returns those rows
unchanged (idempotence). -/
theorem C1_dedup_unique_shrinking_idempotent (df : List Candidate)
    (output_path op2 : String) (wat_count wc2 : Nat) :
    ((deduplicate_repartition_count df output_path wat_count).rows.map Candidate.uid).Nodup ∧
    (deduplicate_repartition_count df output_path wat_count).rows.length ≤ df.length ∧
    (deduplicate_repartition_count
        (deduplicate_repartition_count df output_path wat_count).rows op2 wc2).rows
      = (deduplicate_repartition_count df output_path wat_count).rows := by
  refine ⟨nodup_dropDuplicatesUid df [], length_dropDuplicatesUid_le df [], ?_⟩
  show dropDuplicatesUid [] (dropDuplicatesUid [] df) = dropDuplicatesUid [] df
  exact dropDuplicatesUid_eq_self (dropDuplicatesUid [] df) []
    (by intro r _ hc; simp at hc) (nodup_dropDuplicatesUid df [])

/-- C8: the dedup-merge stage repartitions to exactly
`max 256 (wat_count / 100)` partitions (Python `//` on non-negative
operands is Nat division), hence never fewer than 256. -/
theorem C8_repartition_target (df : List Candidate) (output_path : String)
    (wat_count : Nat) :
    (deduplicate_repartition_count df output_path wat_count).partitions
        = max 256 (wat_count / 100) ∧
    256 ≤ (deduplicate_repartition_count df output_path wat_count).partitions :=
  ⟨rfl, Nat.le_max_left 256 (wat_count / 100)⟩

/-! ## Claim theorems: record filter -/

/-- C2: `valid_link` accepts a descriptor iff its path is the literal
`"IMG@/src"`, its url starts with `"http"`, and its alt is non-empty; in
particular missing alt, empty alt, or a non-http url yield no candidate, and
the file-extension check in the boolean expression can be replaced by any
predicate without changing the result. -/
theorem C2_valid_link_characterization (link : LinkDesc) :
    (valid_link link = true ↔
      (link.path = some "IMG@/src" ∧
       strStartsWith (link.url.getD "") "http" = true ∧
       0 < (link.alt.getD "").length)) ∧
    (∀ imgCheck : String → Bool, valid_link_with imgCheck link = valid_link link) := by
  constructor
  · simp only [valid_link, Bool.and_eq_true, Bool.or_eq_true, beq_iff_eq,
      decide_eq_true_eq]
    cases hpl : link.path with
    | none => simp [Option.getD]
    | some p =>
      simp only [Option.getD_some, Option.some.injEq]
      constructor
      · rintro ⟨⟨⟨-, hp⟩, hh⟩, ha⟩
        exact ⟨hp, hh, ha⟩
      · rintro ⟨hp, hh, ha⟩
        exact ⟨⟨⟨Or.inl hp, hp⟩, hh⟩, ha⟩
  · intro imgCheck
    simp only [valid_link, valid_link_with]
    cases h : (link.path.getD "" == "IMG@/src") <;> simp [h]

/-! ## Claim theorems: the two unbound/ill-typed helpers -/

/-- C9: `process_one_part` reaches its final call
`deduplicate_repartition_count(df, output_path, wat_count, spark)` with the
name `spark` unbound in every enclosing scope, so evaluating the arguments
raises NameError and the persistence actions are never performed (the
result carries no action list). -/
theorem C9_spark_unbound (output_path : String) (wat_index_files : List String)
    (h : wat_index_files ≠ []) :
    process_one_part output_path wat_index_files = Except.error PyErr.nameError := rfl

/-- Witness for C9 at a concrete output path and a non-empty shard list. -/
theorem C9_spark_unbound_witness :
    (["wat1.warc.wat.gz"] : List String) ≠ [] ∧
    process_one_part "s3://out" ["wat1.warc.wat.gz"] = Except.error PyErr.nameError :=
  ⟨by decide, C9_spark_unbound "s3://out" ["wat1.warc.wat.gz"] (by decide)⟩

/-- C10: `url_is_img` binds `rsp` to a `bool` and then calls
`rsp.startswith("http")`, an attribute `bool` does not have, so it raises
AttributeError on every string input and never returns a value. -/
theorem C10_url_is_img_attribute_error (url : String) :
    url_is_img url = Except.error PyErr.attributeError := rfl

/-! ## Lemmas about the extraction loop -/

/-- Any stream whose iteration faults at some point makes the whole call
return `[]`, whatever was accumulated. -/
theorem extractGo_fault (post : List RecEvent) :
    ∀ (pre : List RecEvent) (acc : List Candidate),
      extractGo acc (pre ++ RecEvent.fault :: post) = [] := by
  intro pre
  induction pre with
  | nil => intro acc; rfl
  | cons e rest ih =>
    intro acc
    rw [List.cons_append]
    cases e with
    | fault => rfl
    | decodeFail => exact ih acc
    | ok rd =>
      show (match processRecord rd with
            | Except.error _ => []
            | Except.ok cands => extractGo (acc ++ cands) (rest ++ RecEvent.fault :: post)) = []
      cases processRecord rd with
      | error e2 => rfl
      | ok cands => exact ih (acc ++ cands)

/-- A record whose processing yields no candidates and no exception can be
removed from the stream without changing the extraction result. -/
theorem extractGo_skip_empty (post : List RecEvent) (rd : RecordData)
    (h : processRecord rd = Except.ok []) :
    ∀ (pre : List RecEvent) (acc : List Candidate),
      extractGo acc (pre ++ RecEvent.ok rd :: post) = extractGo acc (pre ++ post) := by
  intro pre
  induction pre with
  | nil =>
    intro acc
    show (match processRecord rd with
          | Except.error _ => []
          | Except.ok cands => extractGo (acc ++ cands) post) = extractGo acc post
    rw [h]
    simp only [List.append_nil]
  | cons e rest ih =>
    intro acc
    rw [List.cons_append, List.cons_append]
    cases e with
    | fault => rfl
    | decodeFail => exact ih acc
    | ok rd2 =>
      show (match processRecord rd2 with
            | Except.error _ => []
            | Except.ok cands => extractGo (acc ++ cands) (rest ++ RecEvent.ok rd :: post))
          = (match processRecord rd2 with
            | Except.error _ => []
            | Except.ok cands => extractGo (acc ++ cands) (rest ++ post))
      cases processRecord rd2 with
      | error e2 => rfl
      | ok cands => exact ih (acc ++ cands)

/-- A record with envelope and payload present but one of the three
`in`-guarded levels absent processes to `Except.ok []` (the `continue`
branches of `main.py:34-41`). -/
theorem processRecord_of_missingInnerLevel (rd : RecordData)
    (h : missingInnerLevel rd = true) : processRecord rd = Except.ok [] := by
  rcases rd with ⟨env⟩
  cases env with
  | none => simp [missingInnerLevel] at h
  | some e =>
    rcases e with ⟨pm⟩
    cases pm with
    | none => simp [missingInnerLevel] at h
    | some p =>
      rcases p with ⟨hro⟩
      cases hro with
      | none => rfl
      | some hresp =>
        rcases hresp with ⟨hmo⟩
        cases hmo with
        | none => rfl
        | some hmeta =>
          rcases hmeta with ⟨ls⟩
          cases ls with
          | none => rfl
          | some l => simp [missingInnerLevel] at h

/-! ## Claim theorems: archive extractor error handling -/

/-- C3 counterexample: a record missing the `Envelope` nesting level is not
merely skipped — the KeyError from `record_data["Envelope"]` reaches the
outer handler, which returns `[]` for the whole file, discarding the
candidate already gathered from the preceding record. -/
theorem C3_counterexample_envelope_aborts_file :
    extract_imgs [RecEvent.ok demoRecord, RecEvent.ok noEnvelopeRecord] = [] ∧
    extract_imgs [RecEvent.ok demoRecord] = [demoCandidate] := by decide

/-- C3 amended: only the three `in`-guarded nesting levels
(`HTTP-Response-Metadata`, `HTML-Metadata`, `Links`) cause a per-record skip
that preserves the rest of the file; the model removes such a record from
any position in the stream without changing the result. -/
theorem C3_missing_inner_level_skipped (pre post : List RecEvent) (rd : RecordData)
    (h : missingInnerLevel rd = true) :
    extract_imgs (pre ++ RecEvent.ok rd :: post) = extract_imgs (pre ++ post) :=
  extractGo_skip_empty post rd (processRecord_of_missingInnerLevel rd h) pre []

/-- Witness for the amended C3: a record lacking `HTTP-Response-Metadata`
placed after a good record is skipped, and the good record's candidate
survives. -/
theorem C3_missing_inner_level_skipped_witness :
    missingInnerLevel noHttpRecord = true ∧
    extract_imgs [RecEvent.ok demoRecord, RecEvent.ok noHttpRecord]
      = extract_imgs [RecEvent.ok demoRecord] :=
  ⟨by decide,
   C3_missing_inner_level_skipped [RecEvent.ok demoRecord] [] noHttpRecord (by decide)⟩

/-- C4 counterexample: on a stream that faults mid-iteration the call
returns `[]`, not the candidates gathered before the fault (here
`[demoCandidate]`, as the fault-free run of the same records shows). -/
theorem C4_counterexample_fault_discards_gathered :
    extract_imgs [RecEvent.ok demoRecord, RecEvent.fault] = [] ∧
    extract_imgs [RecEvent.ok demoRecord, RecEvent.fault] ≠ [demoCandidate] ∧
    extract_imgs [RecEvent.ok demoRecord] = [demoCandidate] := by decide

/-- C4 amended: extraction is total (the model is a plain function — the
outer bare `except` of `main.py:50` also swallows record-level KeyErrors),
but a stream that faults mid-iteration returns the empty sequence; the
candidates gathered before the fault are discarded. -/
theorem C4_fault_returns_empty (pre post : List RecEvent) :
    extract_imgs (pre ++ RecEvent.fault :: post) = [] :=
  extractGo_fault post pre []

/-- C5: a byte stream whose iteration fails from the start (corrupt
container) yields the empty sequence instead of propagating the exception;
the model's totality is the no-raise guarantee. -/
theorem C5_corrupt_stream_yields_empty (rest : List RecEvent) :
    extract_imgs (RecEvent.fault :: rest) = [] :=
  extractGo_fault rest [] []

/-! ## Lemmas for the multi-part slicing -/

/-- `n ≤ m * ceil(n / m)` for `m ≥ 1`, with the ceiling written as
`(n + m - 1) / m` as the slice width of `process_multi_part` computes it. -/
theorem le_mul_ceilDivNat (n m : Nat) (hm : 1 ≤ m) : n ≤ m * ((n + m - 1) / m) := by
  have h1 : m * ((n + m - 1) / m) + (n + m - 1) % m = n + m - 1 := Nat.div_add_mod _ _
  have h2 : (n + m - 1) % m < m := Nat.mod_lt _ hm
  omega

/-- Concatenating the `m` contiguous width-`k` blocks of a list of length at
most `m * k` restores the list. -/
theorem flatten_take_drop_chunks {α : Type} (k : Nat) :
    ∀ (m : Nat) (l : List α), l.length ≤ m * k →
      ((List.range m).map (fun i => (l.drop (i * k)).take k)).flatten = l := by
  intro m
  induction m with
  | zero =>
    intro l hl
    simp only [Nat.zero_mul, Nat.le_zero] at hl
    simp [List.length_eq_zero.mp hl]
  | succ m ih =>
    intro l hl
    rw [List.range_succ_eq_map, List.map_cons, List.flatten_cons, List.map_map]
    simp only [Nat.zero_mul, List.drop_zero]
    have hmap : (List.range m).map ((fun i => (l.drop (i * k)).take k) ∘ Nat.succ)
        = (List.range m).map (fun i => ((l.drop k).drop (i * k)).take k) := by
      apply List.map_congr_left
      intro i _
      simp only [Function.comp_apply]
      rw [List.drop_drop]
      congr 2
      rw [Nat.succ_mul]
      omega
    rw [hmap, ih (l.drop k) (by simp only [List.length_drop]; rw [Nat.succ_mul] at hl; omega)]
    exact List.take_append_drop k l

/-! ## Claim theorem: multi-part orchestrator -/

/-- C6: for `1 ≤ multipart ≤ shard_count`, `process_multi_part` slices the
shard list into `multipart` contiguous blocks of width
`ceil(shard_count / multipart)` whose concatenation is the original list, so
every shard is covered exactly once across the parts. -/
theorem C6_multipart_slices_cover (wat_index_files : List String) (multipart : Nat)
    (h1 : 1 ≤ multipart) (h2 : multipart ≤ wat_index_files.length) :
    (multiPartSlices wat_index_files multipart).length = multipart ∧
    (multiPartSlices wat_index_files multipart).flatten = wat_index_files := by
  constructor
  · simp [multiPartSlices]
  · simp only [multiPartSlices, pySlice]
    have hmap : (List.range multipart).map
        (fun i => (wat_index_files.drop
            (i * ((wat_index_files.length + multipart - 1) / multipart))).take
          ((i + 1) * ((wat_index_files.length + multipart - 1) / multipart)
            - i * ((wat_index_files.length + multipart - 1) / multipart)))
        = (List.range multipart).map
        (fun i => (wat_index_files.drop
            (i * ((wat_index_files.length + multipart - 1) / multipart))).take
          ((wat_index_files.length + multipart - 1) / multipart)) := by
      apply List.map_congr_left
      intro i _
      congr 1
      rw [Nat.add_mul, Nat.one_mul]
      generalize (wat_index_files.length + multipart - 1) / multipart = k
      omega
    rw [hmap]
    exact flatten_take_drop_chunks _ multipart wat_index_files
      (le_mul_ceilDivNat wat_index_files.length multipart h1)

/-- Witness for C6 at a concrete shard list and part count. -/
theorem C6_multipart_slices_cover_witness :
    (1 ≤ 2 ∧ 2 ≤ (["a", "b", "c"] : List String).length) ∧
    ((multiPartSlices ["a", "b", "c"] 2).length = 2 ∧
     (multiPartSlices ["a", "b", "c"] 2).flatten = ["a", "b", "c"]) :=
  ⟨⟨by decide, by decide⟩,
   C6_multipart_slices_cover ["a", "b", "c"] 2 (by decide) (by decide)⟩

/-! ## Lemmas on candidate identity -/

/-- A successfully built candidate's uid is the MD5 hex digest of
`alt ++ url` (`main.py:48`). -/
theorem mkCandidate_uid (link : LinkDesc) (c : Candidate)
    (h : mkCandidate link = Except.ok c) : c.uid = md5Hex (c.alt ++ c.url) := by
  cases hu : link.url with
  | none => rw [mkCandidate] at h; simp [getItem, hu, Bind.bind, Except.bind] at h
  | some u =>
    cases ha : link.alt with
    | none => rw [mkCandidate] at h; simp [getItem, hu, ha, Bind.bind, Except.bind] at h
    | some a =>
      rw [mkCandidate] at h
      simp [getItem, hu, ha, Bind.bind, Except.bind] at h
      subst h
      rfl

theorem mapM_mkCandidate_uid :
    ∀ (links : List LinkDesc) (cands : List Candidate),
      links.mapM mkCandidate = Except.ok cands →
      ∀ c ∈ cands, c.uid = md5Hex (c.alt ++ c.url) := by
  intro links
  induction links with
  | nil =>
    intro cands h c hc
    simp only [List.mapM_nil] at h
    simp [pure, Except.pure] at h
    subst h
    simp at hc
  | cons x xs ih =>
    intro cands h c hc
    rw [List.mapM_cons] at h
    cases hx : mkCandidate x with
    | error e => rw [hx] at h; simp [Bind.bind, Except.bind] at h
    | ok y =>
      rw [hx] at h
      cases hxs : xs.mapM mkCandidate with
      | error e => rw [hxs] at h; simp [Bind.bind, Except.bind] at h
      | ok ys =>
        rw [hxs] at h
        simp [Bind.bind, Except.bind, pure, Except.pure] at h
        subst h
        rcases List.mem_cons.mp hc with rfl | hc2
        · exact mkCandidate_uid x c hx
        · exact ih ys hxs c hc2

theorem processRecord_uid (rd : RecordData) (cands : List Candidate)
    (h : processRecord rd = Except.ok cands) :
    ∀ c ∈ cands, c.uid = md5Hex (c.alt ++ c.url) := by
  rcases rd with ⟨env⟩
  cases env with
  | none => rw [processRecord] at h; simp [getItem, Bind.bind, Except.bind] at h
  | some e =>
    rcases e with ⟨pm⟩
    cases pm with
    | none => rw [processRecord] at h; simp [getItem, Bind.bind, Except.bind] at h
    | some p =>
      rcases p with ⟨hro⟩
      cases hro with
      | none =>
        rw [processRecord] at h
        simp [getItem, Bind.bind, Except.bind] at h
        subst h
        simp
      | some hresp =>
        rcases hresp with ⟨hmo⟩
        cases hmo with
        | none =>
          rw [processRecord] at h
          simp [getItem, Bind.bind, Except.bind] at h
          subst h
          simp
        | some hmeta =>
          rcases hmeta with ⟨ls⟩
          cases ls with
          | none =>
            rw [processRecord] at h
            simp [getItem, Bind.bind, Except.bind] at h
            subst h
            simp
          | some l =>
            rw [processRecord] at h
            simp only [getItem, Bind.bind, Except.bind] at h
            exact mapM_mkCandidate_uid (l.filter valid_link) cands h

theorem mem_extractGo_uid :
    ∀ (stream : List RecEvent) (acc : List Candidate) (c : Candidate),
      c ∈ extractGo acc stream → c ∈ acc ∨ c.uid = md5Hex (c.alt ++ c.url) := by
  intro stream
  induction stream with
  | nil =>
    intro acc c hc
    exact Or.inl (by simpa [extractGo] using hc)
  | cons e rest ih =>
    intro acc c hc
    cases e with
    | fault => simp [extractGo] at hc
    | decodeFail => exact ih acc c hc
    | ok rd =>
      revert hc
      show c ∈ (match processRecord rd with
          | Except.error _ => []
          | Except.ok cands => extractGo (acc ++ cands) rest) → _
      cases hp : processRecord rd with
      | error e2 => intro hc; simp at hc
      | ok cands =>
        intro hc
        rcases ih (acc ++ cands) c hc with hmem | huid
        · rcases List.mem_append.mp hmem with h1 | h2
          · exact Or.inl h1
          · exact Or.inr (processRecord_uid rd cands hp c h2)
        · exact Or.inr huid

/-! ## Claim theorem: candidate identity -/

/-- C7: every candidate emitted by `extract_imgs` carries
`uid = md5Hex (alt ++ url)` — the MD5 hex digest of the concatenation in
that order — and therefore any two candidates with equal `(alt, url)`, from
any calls on any streams, carry the identical uid. -/
theorem C7_uid_is_md5 (stream : List RecEvent) (c : Candidate)
    (h : c ∈ extract_imgs stream) :
    c.uid = md5Hex (c.alt ++ c.url) ∧
    ∀ (stream2 : List RecEvent) (c2 : Candidate), c2 ∈ extract_imgs stream2 →
      c2.alt = c.alt → c2.url = c.url → c2.uid = c.uid := by
  have h1 : c.uid = md5Hex (c.alt ++ c.url) := by
    rcases mem_extractGo_uid stream [] c h with hmem | huid
    · simp at hmem
    · exact huid
  refine ⟨h1, ?_⟩
  intro s2 c2 h2 halt hurl
  have h2' : c2.uid = md5Hex (c2.alt ++ c2.url) := by
    rcases mem_extractGo_uid s2 [] c2 h2 with hmem | huid
    · simp at hmem
    · exact huid
  rw [h2', halt, hurl, h1]

/-- Witness for C7: the §8 end-to-end record yields `demoCandidate`, whose
uid the theorem then equates with the digest of `"cat" ++ "http://a/x.png"`. -/
theorem C7_uid_is_md5_witness :
    demoCandidate ∈ extract_imgs [RecEvent.ok demoRecord] ∧
    demoCandidate.uid = md5Hex (demoCandidate.alt ++ demoCandidate.url) :=
  ⟨by decide, (C7_uid_is_md5 [RecEvent.ok demoRecord] demoCandidate (by decide)).1⟩

end CC
